import Mathlib

/-!
Verification of the spada-sim block/window scheduler and oracle traffic model.

The Rust sources under `src/` are shallowly embedded here:

* `src/scheduler.rs` — the `Scheduler`, its `BlockTopoTracker`, `GroupTracker`
  (`parse_group`), `next_block`, `next_window`, `merge_task`,
  `is_block_finished`, `adjust_window`.
* `src/oracle_storage_traffic_model.rs` — the oracle `TrafficModel`:
  the merge-queue / swap-out loop of `assign_jobs`, `get_exec_result`,
  `oracle_adjust_window` and `try_exec_block`.

Conventions of the embedding:

* Rust `usize` values are embedded as `Nat`; the `usize::MAX` sentinel used by
  the scheduler for `row_s`/`col_s` is the explicit constant `USIZE_MAX`.
  `usize` subtraction that can underflow (a Rust panic) is embedded explicitly
  as an `Except` error, never as truncated `Nat` subtraction.
* Rust panics (`unwrap`, out-of-bounds indexing, failed `assert!`) are embedded
  as `Except String` errors.
* `HashMap`s are embedded as association lists; insertion conses at the front
  and lookup takes the first match, which models insert-overwrites semantics.
  Where source code iterates over a `HashMap` (whose iteration order Rust does
  not fix), the embedding takes the entry list — and hence the iteration
  order — as an explicit input.
* `f64` matrix values are dropped: none of the embedded control flow branches
  on them.  An `Element` keeps only its `idx : [usize; 2]` pair.
* Loops whose termination is not structural are given explicit fuel; running
  out of fuel is a distinguished `Except` error that occurs in none of the
  concrete evaluations below.
-/

/-- The accelerator variants matched by `scheduler.rs` (`frontend::Accelerator`). -/
inductive Accelerator where
  | Ip
  | Omega
  | Op
  | NewOmega
deriving DecidableEq, Repr

/-- `usize::MAX`, used by the scheduler as a sentinel for `row_s` / `col_s`. -/
def USIZE_MAX : Nat := 2 ^ 64 - 1

/-- First-match association-list lookup, the embedding of `HashMap` lookup
(insertion conses at the front, so the first match is the newest insert). -/
def alookup {β : Type} : List (Nat × β) → Nat → Option β
  | [], _ => none
  | (k, v) :: rest, key => if k = key then some v else alookup rest key

/-- List indexing that models Rust `Vec` indexing: out of bounds is a panic. -/
def getE {α : Type} (l : List α) (i : Nat) : Except String α :=
  match l.get? i with
  | some x => Except.ok x
  | none => Except.error "index out of bounds"

namespace Sched

/-- `scheduler.rs` `Element` (from `storage::Element`): only the `idx` pair is
kept; the `f64` value payload never influences scheduling control flow. -/
structure Element where
  idx : Nat × Nat
deriving DecidableEq, Repr

/-- `scheduler.rs` `Task`. -/
structure Task where
  block_token : Nat
  window_token : Nat
  group_size : Nat
  merge_mode : Bool
  a_eles : List (Option Element)
deriving DecidableEq, Repr

/-- `scheduler.rs` `BlockTopoTracker`: parallel lists of row anchors, column
anchor lists and token lists. -/
structure BlockTopoTracker where
  row_s_list : List Nat
  col_s_list : List (List Nat)
  token_list : List (List Nat)
deriving DecidableEq, Repr

/-- `scheduler.rs` `BlockTracker` (per-block bookkeeping). -/
structure BlockTrackerRec where
  token : Nat
  anchor : Nat × Nat
  shape : Nat × Nat
  is_merge_block : Bool
  a_cols_assigned : List Nat
  a_cols_num : List Nat
  window_tokens : List Nat
  miss_size : Nat
  psum_rw_size : Nat × Nat
  is_tail : List Bool
deriving DecidableEq, Repr

/-- `scheduler.rs` `BlockTracker::new`. -/
def BlockTrackerRec.new (token : Nat) (anchor shape : Nat × Nat)
    (is_merge_block : Bool) (a_cols_num : List Nat) (is_tail : List Bool) :
    BlockTrackerRec :=
  { token := token
    anchor := anchor
    shape := shape
    is_merge_block := is_merge_block
    a_cols_assigned := List.replicate a_cols_num.length 0
    a_cols_num := a_cols_num
    window_tokens := []
    miss_size := 0
    psum_rw_size := (0, 0)
    is_tail := is_tail }

/-- `scheduler.rs` `WindowTracker`. -/
structure WindowTrackerRec where
  token : Nat
  anchor : Nat × Nat
  block_token : Nat
  shape : Nat × Nat
  b_cols_assigned : List Nat
  lane2idx : List (Option (Nat × Nat))
  arow_addr_pairs : List (Nat × Nat)
deriving DecidableEq, Repr

/-- `scheduler.rs` `WindowTracker::new`. -/
def WindowTrackerRec.new (token : Nat) (anchor : Nat × Nat) (block_token : Nat)
    (shape : Nat × Nat) (lane2idx : List (Option (Nat × Nat)))
    (arow_addr_pairs : List (Nat × Nat)) : WindowTrackerRec :=
  { token := token
    anchor := anchor
    block_token := block_token
    shape := shape
    b_cols_assigned := List.replicate (shape.1 * shape.2) 0
    lane2idx := lane2idx
    arow_addr_pairs := arow_addr_pairs }

/-- The `Scheduler` state (`scheduler.rs`).  `a_row_num` is not stored
separately: the constructor always sets it to `a_matrix.row_num()`, which is
`a_row_lens.length` here.  The `output_tracker` association list carries an
explicit entry order standing for the `HashMap` iteration order. -/
structure SchedState where
  a_traversed : Bool
  lane_num : Nat
  row_s : Nat
  col_s : Nat
  block_shape : Nat × Nat
  accelerator : Accelerator
  a_row_lens : List Nat
  a_group_rgmap : List (Nat × Nat)
  row_group : Nat
  sampling_bounds : List Nat
  set_row_num : Nat
  block_tracker : List (Nat × BlockTrackerRec)
  window_tracker : List (Nat × WindowTrackerRec)
  output_tracker : List (Nat × List Nat)
  block_topo_tracker : BlockTopoTracker
  output_addr_token : Nat
  window_token : Nat
  block_token : Nat
  finished_a_rows : List Nat
deriving DecidableEq, Repr

/-- `a_row_num`: the scheduler stores `a_matrix.row_num()`, the length of
`a_row_lens`. -/
def SchedState.a_row_num (s : SchedState) : Nat := s.a_row_lens.length

/-- `Scheduler::adjust_window` (`scheduler.rs:925`).  The leading `if` returns
`[block_shape[0], lane_num / block_shape[1]]` for `NewOmega`; the `match`
below it (whose arm also lists `NewOmega`, unreachably) returns
`[block_shape[0], lane_num / block_shape[0]]` for the fixed variants. -/
def adjust_window (s : SchedState) : Nat × Nat :=
  if s.accelerator = Accelerator.NewOmega then
    (s.block_shape.1, s.lane_num / s.block_shape.2)
  else
    (s.block_shape.1, s.lane_num / s.block_shape.1)

/-- A `NewOmega` scheduler state with `lane_num = 8` whose `block_shape` is
`[2, 1]` — the shape the rowwise adjust scheme installs on entering a fresh
row group (`self.block_shape[1] = 1`) starting from a configured `[2, w]`. -/
def c3State : SchedState :=
  { a_traversed := false
    lane_num := 8
    row_s := 0
    col_s := 0
    block_shape := (2, 1)
    accelerator := Accelerator.NewOmega
    a_row_lens := [3, 3]
    a_group_rgmap := [(0, 0), (1, 0)]
    row_group := 0
    sampling_bounds := []
    set_row_num := USIZE_MAX
    block_tracker := []
    window_tracker := []
    output_tracker := []
    block_topo_tracker := ⟨[], [], []⟩
    output_addr_token := 10
    window_token := 0
    block_token := 0
    finished_a_rows := [] }

/-- The result of Rust `slice::binary_search` on a sorted slice: `.inl i` is
`Ok(i)` (the element is at index `i`), `.inr i` is `Err(i)` (the insertion
index).  On a strictly sorted slice the Rust contract determines the result
uniquely; this computes that result (first index whose element is `≥` the
key). -/
def rbs : List Nat → Nat → Sum Nat Nat
  | [], _ => Sum.inr 0
  | y :: ys, x =>
    if x < y then Sum.inr 0
    else if x = y then Sum.inl 0
    else
      match rbs ys x with
      | Sum.inl i => Sum.inl (i + 1)
      | Sum.inr i => Sum.inr (i + 1)

/-- The `Ok(r) | Err(r) => r` collapse used for the row position. -/
def rbsPos : Sum Nat Nat → Nat
  | Sum.inl r => r
  | Sum.inr r => r

/-- `BlockTopoTracker::find_above` (`scheduler.rs:91`).  The query is the
`[usize; 2]` the source receives: the row coordinate is `cur_block[1]` and the
column coordinate `cur_block[0]`.  `let c_l = max(c - 1, 0)` performs `usize`
subtraction, which panics when the insertion index `c` is `0`; the panic is
the `Except.error`.  The comparison of distances is done in `i64` as in the
source. -/
def find_above (t : BlockTopoTracker) (cur_block : Nat × Nat) :
    Except String (Option Nat) := do
  let row_pos0 := rbsPos (rbs t.row_s_list cur_block.2)
  if row_pos0 = 0 then
    return none
  else
    let row_pos := row_pos0 - 1
    let cols ← getE t.col_s_list row_pos
    if cols.length = 0 then
      return none
    else
      match rbs cols cur_block.1 with
      | Sum.inl c => do
        let toks ← getE t.token_list row_pos
        let tok ← getE toks c
        return some tok
      | Sum.inr c =>
        if c = 0 then
          Except.error "attempt to subtract with overflow"
        else do
          let c_l := max (c - 1) 0
          let c_r := min (c + 1) (cols.length - 1)
          let colL ← getE cols c_l
          let colR ← getE cols c_r
          let toks ← getE t.token_list row_pos
          if ((cur_block.1 : Int) - (colL : Int)).natAbs ≥
              ((colR : Int) - (cur_block.1 : Int)).natAbs then
            let tok ← getE toks c_r
            return some tok
          else
            let tok ← getE toks c_l
            return some tok

/-- `BlockTopoTracker::find_left` (`scheduler.rs:71`). -/
def find_left (t : BlockTopoTracker) (cur_block : Nat × Nat) :
    Except String (Option Nat) := do
  let row_pos0 := rbsPos (rbs t.row_s_list cur_block.2)
  if row_pos0 = 0 then
    return none
  else
    let row_pos := row_pos0 - 1
    let cols ← getE t.col_s_list row_pos
    let col_pos0 := rbsPos (rbs cols cur_block.1)
    if col_pos0 = 0 then
      return none
    else do
      let toks ← getE t.token_list row_pos
      let tok ← getE toks (col_pos0 - 1)
      return some tok

/-- A topology-tracker state with one previously issued row-stripe whose
column anchors are `10, 20, 30` carrying tokens `100, 101, 102`. -/
def c5Tracker : BlockTopoTracker :=
  { row_s_list := [0]
    col_s_list := [[10, 20, 30]]
    token_list := [[100, 101, 102]] }

/-- The pair-counting loop at the top of `Scheduler::merge_task`
(`scheduler.rs:495`): accumulate `len/2` per row of the output tracker,
breaking as soon as `pnum >= lane_num / 2`. -/
def pnumLoop (half : Nat) : Nat → List (Nat × List Nat) → Nat
  | pnum, [] => pnum
  | pnum, (_, addrs) :: rest =>
    if half ≤ pnum then pnum else pnumLoop half (pnum + addrs.length / 2) rest

/-- Total number of row-local psum pairs in the output tracker:
`Σ_rows ⌊|list|/2⌋`. -/
def pairsTotal (l : List (Nat × List Nat)) : Nat :=
  (l.map (fun e => e.2.length / 2)).sum

/-- The inner `while psum_addrs.len() > 1` drain of `merge_task`
(`scheduler.rs:506`): repeatedly drain the first two addresses of one row into
`psums` (as `[row, addr]` pairs) until fewer than two remain or
`psums.len() == lane_num`. -/
def drainRow (lane_num row : Nat) (psums : List (Nat × Nat)) :
    List Nat → List (Nat × Nat) × List Nat
  | a :: b :: rest =>
    if psums.length = lane_num then (psums, a :: b :: rest)
    else drainRow lane_num row (psums ++ [(row, a), (row, b)]) rest
  | xs => (psums, xs)

/-- The outer `for (row, psum_addrs) in self.output_tracker.iter_mut()` drain
loop of `merge_task`: every row is visited in entry order (the `HashMap`
iteration order made explicit), each drained by `drainRow`. -/
def drainAll (lane_num : Nat) (psums : List (Nat × Nat)) :
    List (Nat × List Nat) → List (Nat × Nat) × List (Nat × List Nat)
  | [] => (psums, [])
  | (row, addrs) :: rest =>
    let pr := drainRow lane_num row psums addrs
    let tail := drainAll lane_num pr.1 rest
    (tail.1, (row, pr.2) :: tail.2)

/-- The task-building tail of `Scheduler::merge_task` (`scheduler.rs:516`),
reached once the pair check passed: allocates block and window tokens, packs
up to `lane_num/2` row-slots of two psums each, allocates one fresh output
address per slot, and registers block and window trackers. -/
def merge_task_issue (s : SchedState) (psums : List (Nat × Nat))
    (tracker : List (Nat × List Nat)) : Option Task × SchedState :=
  let half := s.lane_num / 2
  let pairsCnt := psums.length / 2
  let blk_token := s.block_token
  let win_token := s.window_token
  let a_cols_num := (List.range half).map (fun r => if r < pairsCnt then 2 else 0)
  let arow_addr_pairs := (List.range half).map (fun r =>
    if r < pairsCnt then ((psums.getD (2 * r) (0, 0)).1, s.output_addr_token + r)
    else (USIZE_MAX, s.output_addr_token + r))
  let a_eles := (List.range half).flatMap (fun r =>
    if r < pairsCnt then
      [some ⟨psums.getD (2 * r) (0, 0)⟩, some ⟨psums.getD (2 * r + 1) (0, 0)⟩]
    else [none, none])
  let lane2idx := (List.range half).flatMap (fun r =>
    if r < pairsCnt then
      [some (psums.getD (2 * r) (0, 0)), some (psums.getD (2 * r + 1) (0, 0))]
    else [none, none])
  let task : Task :=
    { block_token := blk_token
      window_token := win_token
      group_size := 2
      merge_mode := true
      a_eles := a_eles }
  let bt0 := BlockTrackerRec.new blk_token (0, 0) (half, 2) true a_cols_num
    (List.replicate half false)
  let assigned := (List.range half).foldl
    (fun acc r => if r < pairsCnt then acc.set r (acc.getD r 0 + 2) else acc)
    bt0.a_cols_assigned
  let bt := { bt0 with a_cols_assigned := assigned, window_tokens := [win_token] }
  let wt := WindowTrackerRec.new win_token (0, 0) blk_token (half, 2) lane2idx
    arow_addr_pairs
  (some task,
    { s with
      output_tracker := tracker
      block_tracker := (blk_token, bt) :: s.block_tracker
      window_tracker := (win_token, wt) :: s.window_tracker
      block_token := s.block_token + 1
      window_token := s.window_token + 1
      output_addr_token := s.output_addr_token + half })

/-- `Scheduler::merge_task` (`scheduler.rs:489`). -/
def merge_task (s : SchedState) : Option Task × SchedState :=
  let half := s.lane_num / 2
  let pnum := pnumLoop half 0 s.output_tracker
  if (s.a_traversed = true ∧ pnum = 0) ∨ (¬s.a_traversed = true ∧ pnum < half) then
    (none, s)
  else
    let dr := drainAll s.lane_num [] s.output_tracker
    merge_task_issue s dr.1 dr.2

/-- A scheduler state with `lane_num = 1`, A fully traversed, and one row
holding two unmerged psums (one available pair). -/
def c7State : SchedState :=
  { c3State with
    accelerator := Accelerator.Omega
    lane_num := 1
    a_traversed := true
    output_tracker := [(0, [100, 101])] }

/-- A scheduler state with `lane_num = 2` (so `lane_num/2 = 1`), A not yet
traversed, and one available pair. -/
def c7WitnessState : SchedState :=
  { c3State with
    accelerator := Accelerator.Omega
    lane_num := 2
    a_traversed := false
    output_tracker := [(0, [100, 101])] }

/-- Two rows, each holding one unmerged psum pair, presented in one iteration
order of the output tracker. -/
def c2StateA : SchedState :=
  { c3State with
    accelerator := Accelerator.Omega
    lane_num := 2
    a_traversed := false
    output_tracker := [(0, [10, 11]), (1, [20, 21])] }

/-- The same scheduler state with the output tracker presented in the other
iteration order. -/
def c2StateB : SchedState :=
  { c2StateA with output_tracker := [(1, [20, 21]), (0, [10, 11])] }

/-- The scan loop of `parse_group` (`scheduler.rs:149`), recursing over the
remaining row lengths.  `idx` is the loop index, `row_s` the start of the
group being built, `prev` the `prev_row_len` state (`none` is the
`usize::MAX` initial sentinel).  The `f32` variance test
`prev * var_factor < len || prev > var_factor * len` is abstracted as the
Boolean `trigger prev len`; every property proved below holds for an
arbitrary trigger, hence for the floating-point one.  Each produced pair is a
group's `row_range`; the `avg_row_len` and (initially empty) `cost_num`
fields of `GroupInfo` are not consulted by the claimed properties and are
dropped.  Rows of length `0` are skipped exactly as in the source
(`if row_len == 0 { continue; }`). -/
def pgAux (trigger : Nat → Nat → Bool) :
    List Nat → Nat → Nat → Option Nat → List (Nat × Nat)
  | [], idx, row_s, _ => [(row_s, idx)]
  | len :: rest, idx, row_s, prev =>
    if len = 0 then pgAux trigger rest (idx + 1) row_s prev
    else
      match prev with
      | none => pgAux trigger rest (idx + 1) row_s (some len)
      | some p =>
        if trigger p len then
          (row_s, idx) :: pgAux trigger rest (idx + 1) idx (some len)
        else
          pgAux trigger rest (idx + 1) row_s (some len)

/-- `parse_group` (`scheduler.rs:149`): scan all rows starting from index 0
with empty state; the final group is closed at `idx == row_num`. -/
def parse_group (trigger : Nat → Nat → Bool) (lens : List Nat) :
    List (Nat × Nat) :=
  pgAux trigger lens 0 0 none

/-- `chainB gs a b` holds when `gs` is a list of nonempty, contiguous,
consecutive row ranges partitioning `[a, b)`. -/
def chainB : List (Nat × Nat) → Nat → Nat → Bool
  | [], a, b => a == b
  | (s, e) :: gs, a, b => (s == a) && (decide (a < e)) && chainB gs e b

/-- The reverse map `rgmap` built by `GroupTracker::add_group`
(`scheduler.rs:140`): group `i` inserts every row of its range, and a later
insertion overwrites an earlier one, so lookup prefers the later group. -/
def rgmapAux (i : Nat) : List (Nat × Nat) → Nat → Option Nat
  | [], _ => none
  | (s, e) :: gs, r =>
    match rgmapAux (i + 1) gs r with
    | some j => some j
    | none => if s ≤ r ∧ r < e then some i else none

/-- `Scheduler::is_block_finished` (`scheduler.rs:375`): the looked-up block
is finished when no row has `a_cols_assigned < a_cols_num`.  The `unwrap` on
a missing block is a panic. -/
def is_block_finished (s : SchedState) (block_token : Nat) :
    Except String Bool :=
  match alookup s.block_tracker block_token with
  | none => Except.error "unwrap on missing block tracker"
  | some bt =>
    Except.ok ((bt.a_cols_assigned.zip bt.a_cols_num).all
      (fun p => !(decide (p.1 < p.2))))

/-- `Scheduler::is_block_empty` (`scheduler.rs:695`).  The row-length index is
only consulted when `rowid < a_row_num` (Rust's short-circuit `||`), so the
`getD` default is never read on the panic-free path. -/
def is_block_empty (s : SchedState) (block_anchor block_shape : Nat × Nat) :
    Bool :=
  (List.range block_shape.1).all (fun off =>
    let rowid := block_anchor.1 + off
    decide (rowid ≥ s.a_row_num) ||
      decide (block_anchor.2 ≥ s.a_row_lens.getD rowid 0))

/-- `Scheduler::is_window_empty` (`scheduler.rs:707`), including the source's
upper bound `min(window_anchor[0] + window_shape[0],
block_anchor[1] + block_shape[1])`. -/
def is_window_empty (s : SchedState)
    (block_anchor block_shape window_anchor window_shape : Nat × Nat) : Bool :=
  (List.range
      (min (window_anchor.1 + window_shape.1) (block_anchor.2 + block_shape.2)
        - window_anchor.1)).all (fun off =>
    let rowid := window_anchor.1 + off
    decide (rowid ≥ s.a_row_num) ||
      decide (window_anchor.2 ≥ s.a_row_lens.getD rowid 0))

/-- The fields the `NewOmega` block-adjust schemes write
(`rowwise_block_adjust_scheme` and friends take `&mut self` but assign only
`block_shape`, `row_group`, `sampling_bounds`, `set_row_num`, and the group
cost maps, which no embedded function reads). -/
structure AdjustFields where
  block_shape : Nat × Nat
  row_group : Nat
  sampling_bounds : List Nat
  set_row_num : Nat
deriving DecidableEq, Repr

/-- Apply a `NewOmega` adjust-scheme result to the scheduler state. -/
def applyAdjust (s : SchedState) (f : AdjustFields) : SchedState :=
  { s with
    block_shape := f.block_shape
    row_group := f.row_group
    sampling_bounds := f.sampling_bounds
    set_row_num := f.set_row_num }

/-- `Scheduler::adjust_block` (`scheduler.rs:752`).  For the fixed variants it
refreshes `row_group` from the (panicking-on-missing) `rgmap` lookup.  For
`NewOmega` the heuristic scheme (scheme 8, `rowwise_block_adjust_scheme`,
whose cost arithmetic is in `f32`) is abstracted as the function `scheme`,
constrained by construction to write only the `AdjustFields`; `none` stands
for a scheme panic. -/
def adjust_block (scheme : SchedState → Option AdjustFields) (s : SchedState) :
    Except String SchedState :=
  match s.accelerator with
  | Accelerator.Ip | Accelerator.Omega | Accelerator.Op =>
    match alookup s.a_group_rgmap s.row_s with
    | none => Except.error "rgmap missing row"
    | some g =>
      if g ≠ s.row_group then Except.ok { s with row_group := g }
      else Except.ok s
  | Accelerator.NewOmega =>
    match scheme s with
    | none => Except.error "adjust scheme panicked"
    | some f => Except.ok (applyAdjust s f)

/-- The `a_cols_num` computation of `next_block` (`scheduler.rs:417`):
`max(min(rlen, col_s + w), col_s) - col_s` per block row; indexing
`a_row_lens[ridx]` panics when the block overruns the matrix rows. -/
def aColsNumE (s : SchedState) : Except String (List Nat) :=
  (List.range s.block_shape.1).mapM (fun offset => do
    let rlen ← getE s.a_row_lens (s.row_s + offset)
    pure (max (min rlen (s.col_s + s.block_shape.2)) s.col_s - s.col_s))

/-- The `is_tail` computation of `next_block` (`scheduler.rs:424`). -/
def isTailE (s : SchedState) : Except String (List Bool) :=
  (List.range s.block_shape.1).mapM (fun offset => do
    let rlen ← getE s.a_row_lens (s.row_s + offset)
    pure (decide (s.col_s + s.block_shape.2 ≥ rlen)))

/-- The block-emitting tail shared by both emitting branches of `next_block`
(`scheduler.rs:416` and `scheduler.rs:451`): allocate a token, build the
tracker, record it, and advance `col_s` along the reduction dimension. -/
def emitBlock (s : SchedState) : Except String (Option Nat × SchedState) := do
  let token := s.block_token
  let a_cols_num ← aColsNumE s
  let is_tail ← isTailE s
  let bt := BlockTrackerRec.new token (s.row_s, s.col_s) s.block_shape false
    a_cols_num is_tail
  Except.ok (some token,
    { s with
      block_tracker := (token, bt) :: s.block_tracker
      col_s := s.col_s + s.block_shape.2
      block_token := s.block_token + 1 })

/-- `Scheduler::next_block` (`scheduler.rs:406`).  The `loop` is fueled; the
initial branch fires on the `usize::MAX` sentinels, the second returns `None`
once `row_s` passes the last row, the third emits a non-empty block, and the
last advances to the next row stripe, adjusting the block shape when rows
remain. -/
def next_block (scheme : SchedState → Option AdjustFields) :
    Nat → SchedState → Except String (Option Nat × SchedState)
  | 0, _ => Except.error "fuel exhausted"
  | fuel + 1, s =>
    if s.row_s = USIZE_MAX ∧ s.col_s = USIZE_MAX then do
      let s := { s with row_s := 0, col_s := 0 }
      let s ← if s.accelerator = Accelerator.NewOmega then adjust_block scheme s
        else Except.ok s
      emitBlock s
    else if s.row_s ≥ s.a_row_num then
      Except.ok (none, s)
    else if ¬is_block_empty s (s.row_s, s.col_s) s.block_shape then
      emitBlock s
    else do
      let s := { s with row_s := s.row_s + s.block_shape.1, col_s := 0 }
      let s ← if s.row_s < s.a_row_num then adjust_block scheme s
        else Except.ok s
      next_block scheme fuel s

/-- `CsrMatStorage::read_scalars`, modelled from the spec's CSR storage: read
up to `num` scalars of row `r` starting at in-row position `pos`; the matrix
is the list of per-row column-id lists (values dropped).  A missing row is a
panic; `next_window` computes `num` so the slice is always in range. -/
def read_scalars (aMatrix : List (List Nat)) (r pos num : Nat) :
    Except String (List Element) :=
  match aMatrix.get? r with
  | none => Except.error "read_scalars row out of range"
  | some row => Except.ok (((row.drop pos).take num).map (fun c => ⟨(r, c)⟩))

/-- The `while window_anchor[0] < row_lim` row-advance loop of `next_window`
(`scheduler.rs:620`): reset the column to the block anchor, step down by the
window height, and stop at the first non-empty window or past the block. -/
def winSkipLoop (s : SchedState) (blkAnchor blkShape winShape : Nat × Nat)
    (rowLim : Nat) : Nat → Nat × Nat → Except String (Nat × Nat)
  | 0, _ => Except.error "fuel exhausted"
  | fuel + 1, anchor =>
    if anchor.1 < rowLim then
      let anchor := (anchor.1 + winShape.1, blkAnchor.2)
      if ¬is_window_empty s blkAnchor blkShape anchor winShape then
        Except.ok anchor
      else
        winSkipLoop s blkAnchor blkShape winShape rowLim fuel anchor
    else
      Except.ok anchor

/-- The element-packing tail of `next_window` (`scheduler.rs:637`): allocate
one output address per window row, read each row's scalars inside the window
columns, bump the block's `a_cols_assigned`, build `lane2idx`/`a_eles`
(rewriting each element's row index to the window token), and register the
window. -/
def finishWindow (aMatrix : List (List Nat)) (blockToken windowToken : Nat)
    (anchor shape blockAnchor : Nat × Nat) (s : SchedState) :
    Except String (Option Task × SchedState) := do
  let output_addrs := (List.range shape.1).map
    (fun r => (anchor.1 + r, s.output_addr_token + r))
  let s := { s with output_addr_token := s.output_addr_token + shape.1 }
  let res ← (List.range shape.1).foldlM
    (fun (acc : SchedState × List (Option (Nat × Nat)) × List (Option Element))
        off => do
      let (s, lane2idx, a_eles) := acc
      let r_idx := anchor.1 + off
      let rlen ← getE s.a_row_lens r_idx
      let num := min (max rlen anchor.2) (anchor.2 + shape.2) - anchor.2
      let element ← read_scalars aMatrix r_idx anchor.2 num
      let eleLen := element.length
      if r_idx < blockAnchor.1 then
        Except.error "attempt to subtract with overflow"
      else
        let idxInBlock := r_idx - blockAnchor.1
        match alookup s.block_tracker blockToken with
        | none => Except.error "unwrap on missing block tracker"
        | some bt =>
          if idxInBlock < bt.a_cols_assigned.length then
            let bt := { bt with
              a_cols_assigned := bt.a_cols_assigned.set idxInBlock
                (bt.a_cols_assigned.getD idxInBlock 0 + eleLen) }
            let s := { s with
              block_tracker := (blockToken, bt) :: s.block_tracker }
            let lane2idx := lane2idx ++ element.map (fun e => some e.idx) ++
              List.replicate (shape.2 - eleLen) none
            let a_eles := a_eles ++
              element.map (fun e => some (⟨(windowToken, e.idx.2)⟩ : Element)) ++
              List.replicate (shape.2 - eleLen) none
            pure (s, lane2idx, a_eles)
          else
            Except.error "index out of bounds")
    (s, ([] : List (Option (Nat × Nat))), ([] : List (Option Element)))
  let (s, lane2idx, a_eles) := res
  let wt := WindowTrackerRec.new windowToken anchor blockToken shape lane2idx
    output_addrs
  let s := { s with window_tracker := (windowToken, wt) :: s.window_tracker }
  match alookup s.block_tracker blockToken with
  | none => Except.error "unwrap on missing block tracker"
  | some bt =>
    let s := { s with
      block_tracker := (blockToken,
        { bt with window_tokens := bt.window_tokens ++ [windowToken] }) ::
        s.block_tracker }
    Except.ok (some
      { block_token := blockToken
        window_token := windowToken
        group_size := shape.2
        merge_mode := false
        a_eles := a_eles }, s)

/-- `Scheduler::next_window` (`scheduler.rs:582`).  The first window of a
block allocates a fresh window token and starts at the block anchor; later
calls reuse the previous window's token and shape, first advancing along the
reduction dimension, then down the rows via `winSkipLoop`. -/
def next_window (aMatrix : List (List Nat)) (blockToken fuel : Nat)
    (s : SchedState) : Except String (Option Task × SchedState) := do
  let blk ← (match alookup s.block_tracker blockToken with
    | some b => Except.ok b
    | none => Except.error "unwrap on missing block tracker")
  match blk.window_tokens.getLast? with
  | none =>
    let windowShape := adjust_window s
    let windowToken := s.window_token
    let s := { s with window_token := s.window_token + 1 }
    finishWindow aMatrix blockToken windowToken blk.anchor windowShape
      blk.anchor s
  | some prev => do
    let window ← (match alookup s.window_tracker prev with
      | some w => Except.ok w
      | none => Except.error "unwrap on missing window tracker")
    let rowLim := blk.anchor.1 + blk.shape.1
    let colLim := blk.anchor.2 + blk.shape.2
    if window.anchor.1 ≥ rowLim then
      Except.ok (none, s)
    else if window.anchor.2 + window.shape.2 < colLim then
      finishWindow aMatrix blockToken window.token
        (window.anchor.1, window.anchor.2 + window.shape.2) window.shape
        blk.anchor s
    else do
      let anchor ← winSkipLoop s blk.anchor blk.shape window.shape rowLim fuel
        window.anchor
      if anchor.1 ≥ rowLim then
        Except.ok (none, s)
      else
        finishWindow aMatrix blockToken window.token anchor window.shape
          blk.anchor s

/-- A `NewOmega` adjust scheme that always panics; never invoked by the
fixed-variant runs below. -/
def noScheme : SchedState → Option AdjustFields := fun _ => none

/-- Scheduler start state for the over-assignment run: `Omega`, `lane_num 4`,
configured `block_shape [2, 3]`, a 2-row matrix with row lengths `[4, 1]`. -/
def c6State : SchedState :=
  { a_traversed := false
    lane_num := 4
    row_s := USIZE_MAX
    col_s := USIZE_MAX
    block_shape := (2, 3)
    accelerator := Accelerator.Omega
    a_row_lens := [4, 1]
    a_group_rgmap := [(0, 0), (1, 0)]
    row_group := USIZE_MAX
    sampling_bounds := []
    set_row_num := USIZE_MAX
    block_tracker := []
    window_tracker := []
    output_tracker := []
    block_topo_tracker := ⟨[], [], []⟩
    output_addr_token := 0
    window_token := 0
    block_token := 0
    finished_a_rows := [] }

/-- The matrix driven through the over-assignment run: row 0 has four
elements, row 1 has one. -/
def c6Matrix : List (List Nat) := [[0, 1, 2, 3], [5]]

/-- Drive the scheduler as `assign_jobs` would: open the first block, then
request two consecutive windows of it; report `is_block_finished` and the
per-row assigned/total sums of the block tracker. -/
def c6run : Except String (Bool × Nat × Nat) := do
  let pr ← next_block noScheme 5 c6State
  match pr.1 with
  | none => Except.error "no block"
  | some tok => do
    let pr1 ← next_window c6Matrix tok 10 pr.2
    let pr2 ← next_window c6Matrix tok 10 pr1.2
    let fin ← is_block_finished pr2.2 tok
    match alookup pr2.2.block_tracker tok with
    | none => Except.error "missing block"
    | some bt => Except.ok (fin, bt.a_cols_assigned.sum, bt.a_cols_num.sum)

/-- Scheduler start state for the topology-recording run: `Ip`, one-row
matrix, unit block shape. -/
def c4State : SchedState :=
  { c6State with
    lane_num := 4
    block_shape := (1, 1)
    accelerator := Accelerator.Ip
    a_row_lens := [1]
    a_group_rgmap := [(0, 0)] }

/-- Open the first block and report its token, the topology tracker contents
afterwards, and what `find_left`/`find_above` answer about the block's own
anchor. -/
def c4run : Except String
    (Option Nat × BlockTopoTracker ×
      Except String (Option Nat) × Except String (Option Nat)) := do
  let pr ← next_block noScheme 5 c4State
  Except.ok (pr.1, pr.2.block_topo_tracker,
    find_left pr.2.block_topo_tracker (0, 0),
    find_above pr.2.block_topo_tracker (0, 0))

/-- A scheduler state holding one issued block whose per-row assignments have
not over-run their totals. -/
def c6WitnessState : SchedState :=
  { c6State with
    row_s := 0
    col_s := 3
    block_tracker := [(0,
      { token := 0
        anchor := (0, 0)
        shape := (2, 3)
        is_merge_block := false
        a_cols_assigned := [2, 1]
        a_cols_num := [3, 1]
        window_tokens := [0]
        miss_size := 0
        psum_rw_size := (0, 0)
        is_tail := [false, true] })]
    block_token := 1
    window_token := 1
    output_addr_token := 2 }

end Sched

namespace Oracle

/-- `oracle_storage_traffic_model.rs` `MergeTracker`: per-A-row finished flag
and pending block anchors. -/
structure MergeTrackerRec where
  finished : Bool
  blocks : List (Nat × Nat)
deriving DecidableEq, Repr

/-- Result of the merge-queue processing loop: the swap-outs performed (row,
psum address), and — unless a lookup panicked — the kept queue together with
the accumulated `psums_num`. -/
structure MQResult where
  swaps : List (Nat × Nat)
  kept : Option (List Nat × Nat)
deriving DecidableEq, Repr

/-- The merge-queue walk at the top of `TrafficModel::assign_jobs`
(`oracle_storage_traffic_model.rs:405`): for each queued row (the queue was
sorted and deduplicated just before), look up its outstanding psum addresses
(panic if absent).  A row with exactly one address is removed from the queue,
and its single psum is swapped out of the fiber cache iff the row's merge
tracker (panic if absent) is `finished` with no pending blocks; other rows
stay queued and contribute their address count to `psums_num`.
`fiber_cache.swapout` itself lives in the missing `storage` module and is
modelled from the spec as an event recorded in `swaps`; it touches neither
tracker read by the loop. -/
def mqLoop (out : List (Nat × List Nat)) (mt : List (Nat × MergeTrackerRec)) :
    List Nat → MQResult
  | [] => ⟨[], some ([], 0)⟩
  | rowid :: rest =>
    match alookup out rowid with
    | none => ⟨[], none⟩
    | some addrs =>
      if addrs.length = 1 then
        match alookup mt rowid with
        | none => ⟨[], none⟩
        | some tr =>
          let sw := if tr.finished = true ∧ tr.blocks = [] then
              [(rowid, addrs.headD 0)]
            else []
          let r := mqLoop out mt rest
          ⟨sw ++ r.swaps, r.kept⟩
      else
        let r := mqLoop out mt rest
        ⟨r.swaps, r.kept.map (fun kn => (rowid :: kn.1, kn.2 + addrs.length))⟩

/-- A psum fiber: its current row pointer (psum address, later relabeled to an
output row) and its column ids; `f64` data dropped. -/
structure Fiber where
  rowptr : Nat
  colids : List Nat
deriving DecidableEq, Repr

/-- Insert a fiber into a list ascending by `rowptr`, after any equal keys —
one step of a stable sort. -/
def insertFiber (f : Fiber) : List Fiber → List Fiber
  | [] => [f]
  | g :: gs => if g.rowptr ≤ f.rowptr then g :: insertFiber f gs else f :: g :: gs

/-- The stable `c.sort_by(|a, b| a.rowptr.cmp(&b.rowptr))` at the end of
`get_exec_result`. -/
def sortByRowptr (l : List Fiber) : List Fiber :=
  l.foldl (fun acc f => insertFiber f acc) []

/-- The state `get_exec_result` reads: A's per-row lengths (the `indptr`
differences) and remap of the `CsrMatStorage` (modelled from the spec's CSR
storage: `row_remap` maps internal to original indices, `remapped` says a
reorder was applied), the output trackers, and the two places a psum fiber
can live — psum backing storage (`psum_mem.data`) or the fiber cache
(`rowmap`), both modelled from the spec's storage section. -/
structure ExecResultState where
  a_row_lens : List Nat
  remapped : Bool
  row_remap : List (Nat × Nat)
  output_trackers : List (Nat × List Nat)
  psum_mem_data : List (Nat × Fiber)
  cache_rowmap : List (Nat × Fiber)
deriving DecidableEq, Repr

/-- `TrafficModel::get_exec_result` (`oracle_storage_traffic_model.rs:864`):
one fiber per internal row; a row with content requires exactly one
outstanding psum address (`assert!` carrying the addresses and the row id),
fetches the fiber from psum storage or cache, and relabels it with the
remapped row id; an empty row keeps `CsrRow::new(rowid)` — the *internal*
index.  The rows are finally stable-sorted by row pointer. -/
def get_exec_result (st : ExecResultState) : Except String (List Fiber) := do
  let c ← (List.range st.a_row_lens.length).foldlM
    (fun (acc : List Fiber) rowid => do
      let len := st.a_row_lens.getD rowid 0
      if 0 < len then do
        let raw_rowid ←
          if st.remapped then
            match alookup st.row_remap rowid with
            | some r => Except.ok r
            | none => Except.error "unwrap on missing row_remap"
          else Except.ok rowid
        let addrs ← (match alookup st.output_trackers rowid with
          | some a => Except.ok a
          | none => Except.error "unwrap on missing output tracker")
        if addrs.length = 1 then do
          let addr := addrs.headD 0
          let fiber ← (match alookup st.psum_mem_data addr with
            | some row => Except.ok row
            | none =>
              match alookup st.cache_rowmap addr with
              | some row => Except.ok row
              | none => Except.error "unwrap on missing fiber")
          pure (acc ++ [{ fiber with rowptr := raw_rowid }])
        else
          Except.error ("Partially merged psums! " ++ toString addrs ++
            " of row " ++ toString raw_rowid)
      else
        pure (acc ++ [{ rowptr := rowid, colids := [] }]))
    []
  pure (sortByRowptr c)

/-- A reordered 2-row A whose internal row 0 is original row 1 (one nonzero,
merged to the single psum at address 7) and internal row 1 is original row 0
(empty). -/
def c9State : ExecResultState :=
  { a_row_lens := [1, 0]
    remapped := true
    row_remap := [(0, 1), (1, 0)]
    output_trackers := [(0, [7])]
    psum_mem_data := [(7, ⟨7, [0]⟩)]
    cache_rowmap := [] }

/-- A fiber's size in elements. -/
def Fiber.size (f : Fiber) : Nat := f.colids.length

/-- Modelled from the spec: the B-side `CsrMatStorage` backing store (the
`storage` module is not under `src/`) — read-only fibers plus traffic
counters; `read_count` counts elements. -/
structure BMem where
  rows : List Fiber
  read_count : Nat
  write_count : Nat
deriving DecidableEq, Repr

/-- Modelled from the spec: the psum `VectorStorage` backing store — psum
address to fiber, plus traffic counters counted in elements. -/
structure PsumMem where
  data : List (Nat × Fiber)
  read_count : Nat
  write_count : Nat
deriving DecidableEq, Repr

/-- Modelled from the spec (§ fiber cache): cache contents keyed by fiber id,
LRU order (least recent first), occupancy, capacity, counters, the
`psum_base` id split between B and psum backing, and the two backing
stores. -/
structure CacheState where
  rowmap : List (Nat × Fiber)
  lru : List Nat
  cur_num : Nat
  capability : Nat
  read_count : Nat
  write_count : Nat
  miss_count : Nat
  b_evict_count : Nat
  psum_evict_count : Nat
  psum_base : Nat
  b_mem : BMem
  psum_mem : PsumMem
deriving DecidableEq, Repr

/-- Modelled from the spec: `LRUCache` with its optional snapshot; a snapshot
is a value copy of the whole cache state, backing storages included. -/
structure FiberCache where
  st : CacheState
  snapshot : Option CacheState
deriving DecidableEq, Repr

/-- Move a fiber id to the most-recent end of the LRU order. -/
def lruTouch (lru : List Nat) (id : Nat) : List Nat :=
  lru.filter (fun x => x != id) ++ [id]

/-- Remove an association-list entry. -/
def removeAssoc (m : List (Nat × Fiber)) (id : Nat) : List (Nat × Fiber) :=
  m.filter (fun e => e.1 != id)

/-- Modelled from the spec: evict least-recent fibers until the occupancy
fits the capacity; evicted B fibers are dropped (bumping `b_evict_count`),
evicted psums are flushed to psum storage (bumping its write counter and
`psum_evict_count`). -/
def evictLoop : Nat → CacheState → CacheState
  | 0, c => c
  | fuel + 1, c =>
    if c.cur_num ≤ c.capability then c
    else
      match c.lru with
      | [] => c
      | id :: rest =>
        match alookup c.rowmap id with
        | none => evictLoop fuel { c with lru := rest }
        | some f =>
          let c := { c with
            rowmap := removeAssoc c.rowmap id
            lru := rest
            cur_num := c.cur_num - f.size }
          if id < c.psum_base then
            evictLoop fuel { c with b_evict_count := c.b_evict_count + 1 }
          else
            evictLoop fuel { c with
              psum_mem := { c.psum_mem with
                data := (id, f) :: c.psum_mem.data
                write_count := c.psum_mem.write_count + f.size }
              psum_evict_count := c.psum_evict_count + 1 }

/-- Modelled from the spec: `LRUCache::write` — insert or replace, count the
written elements, and evict until the capacity holds. -/
def cacheWrite (c : CacheState) (f : Fiber) : CacheState :=
  let id := f.rowptr
  let c :=
    match alookup c.rowmap id with
    | some old =>
      { c with
        rowmap := removeAssoc c.rowmap id
        lru := c.lru.filter (fun x => x != id)
        cur_num := c.cur_num - old.size }
    | none => c
  let c := { c with
    rowmap := (id, f) :: c.rowmap
    lru := lruTouch c.lru id
    cur_num := c.cur_num + f.size
    write_count := c.write_count + f.size }
  evictLoop c.lru.length c

/-- Modelled from the spec: `LRUCache::read` — on a hit bump the LRU order
and the read counter; on a miss fetch from the backing store selected by the
`psum_base` id split (B fibers stay in the backing store, psum fibers move
out of it), count the miss and the backing reads, insert, and evict to
capacity; an id absent everywhere reads as `None`. -/
def cacheRead (c : CacheState) (id : Nat) : Option Fiber × CacheState :=
  match alookup c.rowmap id with
  | some f =>
    (some f, { c with
      lru := lruTouch c.lru id
      read_count := c.read_count + f.size })
  | none =>
    if id < c.psum_base then
      match c.b_mem.rows.get? id with
      | none => (none, c)
      | some f =>
        let c := { c with
          miss_count := c.miss_count + 1
          b_mem := { c.b_mem with read_count := c.b_mem.read_count + f.size }
          read_count := c.read_count + f.size
          rowmap := (id, f) :: c.rowmap
          lru := lruTouch c.lru id
          cur_num := c.cur_num + f.size }
        (some f, evictLoop c.lru.length c)
    else
      match alookup c.psum_mem.data id with
      | none => (none, c)
      | some f =>
        let c := { c with
          miss_count := c.miss_count + 1
          psum_mem := { c.psum_mem with
            data := removeAssoc c.psum_mem.data id
            read_count := c.psum_mem.read_count + f.size }
          read_count := c.read_count + f.size
          rowmap := (id, f) :: c.rowmap
          lru := lruTouch c.lru id
          cur_num := c.cur_num + f.size }
        (some f, evictLoop c.lru.length c)

/-- Modelled from the spec: A-side `CsrMatStorage` — per-row column ids, a
read counter in elements, and a counter snapshot (the matrix data itself is
never mutated by the oracle search). -/
structure AMem where
  rows : List (List Nat)
  read_count : Nat
  snapshot : Option Nat
deriving DecidableEq, Repr

/-- Modelled from the spec: `take_snapshot` on the A store. -/
def amemTakeSnapshot (a : AMem) : AMem := { a with snapshot := some a.read_count }

/-- Modelled from the spec: `restore_from_snapshot` on the A store. -/
def amemRestoreSnapshot (a : AMem) : AMem :=
  { a with read_count := a.snapshot.getD a.read_count }

/-- Modelled from the spec: `take_snapshot` on the fiber cache (captures the
cache and both backing storages). -/
def cacheTakeSnapshot (fc : FiberCache) : FiberCache :=
  { fc with snapshot := some fc.st }

/-- Modelled from the spec: `restore_from_snapshot` on the fiber cache. -/
def cacheRestoreSnapshot (fc : FiberCache) : FiberCache :=
  { fc with st := fc.snapshot.getD fc.st }

/-- The oracle `TrafficModel` fields exercised by `oracle_adjust_window`:
A storage, fiber cache, the psum address counter `output_base_addr`, and
`lane_num`. -/
structure OracleState where
  a_mem : AMem
  cache : FiberCache
  output_base_addr : Nat
  lane_num : Nat
deriving DecidableEq, Repr

/-- The `take_snapshot` prologue of the oracle `assign_jobs`
(`oracle_storage_traffic_model.rs:394`): snapshot the A store and the
cache. -/
def takeSnapshots (st : OracleState) : OracleState :=
  { st with
    a_mem := amemTakeSnapshot st.a_mem
    cache := cacheTakeSnapshot st.cache }

/-- `oracle_storage_traffic_model.rs` `Block`. -/
structure Block where
  width : Nat
  height : Nat
  row_s : Nat
  col_s : Nat
deriving DecidableEq, Repr

/-- `TrafficModel::is_col_s_valid` (`oracle_storage_traffic_model.rs:603`). -/
def is_col_s_valid (a : AMem) (rowid col_s : Nat) : Bool :=
  !(decide (rowid ≥ a.rows.length) ||
    decide ((a.rows.getD rowid []).length ≤ col_s))

/-- `TrafficModel::is_window_valid` (`oracle_storage_traffic_model.rs:569`). -/
def is_window_valid (a : AMem) (row_s row_num col_s b_col_s b_width : Nat) :
    Bool :=
  (List.range row_num).any (fun off =>
    is_col_s_valid a (row_s + off) col_s &&
    !decide (col_s < b_col_s) &&
    !decide (col_s ≥ b_col_s + b_width))

/-- Sorted insertion of a column id, the `binary_search`-insert accumulation
`compute_a_window`/`try_exec_block` perform on psum column ids (summed `f64`
values dropped). -/
def insertColid (x : Nat) : List Nat → List Nat
  | [] => [x]
  | y :: ys =>
    if x < y then x :: y :: ys
    else if x = y then y :: ys
    else y :: insertColid x ys

/-- Accumulate one fetched fiber's column ids into a psum. -/
def unionColids (acc : List Nat) (f : Fiber) : List Nat :=
  f.colids.foldl (fun a c => insertColid c a) acc

/-- One cache fetch of `try_exec_block`'s fetch loop, through the per-window
`broadcast_cache`. -/
def fetchOne (st : OracleState) (bcast : List (Nat × Fiber)) (colid : Nat) :
    OracleState × List (Nat × Fiber) × Option Fiber :=
  match alookup bcast colid with
  | some f => (st, bcast, some f)
  | none =>
    let rc := cacheRead st.cache.st colid
    let st := { st with cache := { st.cache with st := rc.2 } }
    match rc.1 with
    | some f => (st, (colid, f) :: bcast, some f)
    | none => (st, bcast, none)

/-- One row of one window position of `try_exec_block`
(`oracle_storage_traffic_model.rs:1029`): read the row's scalars inside the
window from A (counting the reads), fetch the touched B fibers through the
cache, and — when at least one scaling factor was collected — write the
accumulated psum under a fresh `output_base_addr` through the cache. -/
def execWindowRow (rw : Nat × Nat) (col_s : Nat)
    (acc : OracleState × List (Nat × Fiber)) (rowidx : Nat) :
    OracleState × List (Nat × Fiber) :=
  let st := acc.1
  let bcast := acc.2
  let rlen := (st.a_mem.rows.getD rowidx []).length
  if col_s < rlen then
    let ele_num := min rw.1 (rlen - col_s)
    let elems := ((st.a_mem.rows.getD rowidx []).drop col_s).take ele_num
    let st := { st with
      a_mem := { st.a_mem with read_count := st.a_mem.read_count + ele_num } }
    let fin := elems.foldl
      (fun (acc2 : OracleState × List (Nat × Fiber) × List Fiber) colid =>
        let f1 := fetchOne acc2.1 acc2.2.1 colid
        match f1.2.2 with
        | some f => (f1.1, f1.2.1, acc2.2.2 ++ [f])
        | none => (f1.1, f1.2.1, acc2.2.2))
      (st, bcast, ([] : List Fiber))
    let st := fin.1
    let bcast := fin.2.1
    let fbs := fin.2.2
    if fbs.isEmpty then (st, bcast)
    else
      let psum : Fiber := ⟨st.output_base_addr, fbs.foldl unionColids []⟩
      ({ st with
        output_base_addr := st.output_base_addr + 1
        cache := { st.cache with st := cacheWrite st.cache.st psum } }, bcast)
  else
    (st, bcast)

/-- One window position of `try_exec_block`: the touched rows are
`row_s .. min(row_s + rw[1], row_len)` and the broadcast cache is fresh per
position. -/
def execWindowPos (rw : Nat × Nat) (row_s col_s : Nat) (st : OracleState) :
    OracleState :=
  let rowidxs := List.range' row_s
    (min (row_s + rw.2) st.a_mem.rows.length - row_s)
  (rowidxs.foldl (execWindowRow rw col_s) (st, [])).1

/-- The inner `while !is_window_valid` row-skip loop of `try_exec_block`
(`oracle_storage_traffic_model.rs:995`); its `break` leaves the *inner* loop
only, so the returned `row_s` may already exceed the block. -/
def skipRowsLoop (a : AMem) (rw2 col_s b_col_s b_width limit : Nat) :
    Nat → Nat → Except String Nat
  | 0, _ => Except.error "fuel exhausted"
  | fuel + 1, row_s =>
    if ¬is_window_valid a row_s rw2 col_s b_col_s b_width = true then
      let row_s := row_s + rw2
      if row_s ≥ limit then Except.ok row_s
      else skipRowsLoop a rw2 col_s b_col_s b_width limit fuel row_s
    else Except.ok row_s

/-- The window-position loop of `try_exec_block`
(`oracle_storage_traffic_model.rs:974`): each iteration first slides the
window (along the reduction dimension if the next position is valid, else to
the next row stripe, where only the bound check directly after the stride
breaks the outer loop), then fetches/computes/writes at the new position. -/
def tryExecLoop (block : Block) (rw : Nat × Nat) :
    Nat → Nat → Nat → OracleState → Except String OracleState
  | 0, _, _, _ => Except.error "fuel exhausted"
  | fuel + 1, row_s, col_s, st =>
    if row_s ≥ block.row_s + block.height then Except.ok st
    else do
      let pos ←
        if is_window_valid st.a_mem row_s rw.2 (col_s + rw.1) col_s
            block.width = true then
          Except.ok (some (row_s, col_s + rw.1))
        else
          let col_s := block.col_s
          let row_s := row_s + rw.2
          if row_s ≥ block.row_s + block.height then Except.ok none
          else do
            let row_s ← skipRowsLoop st.a_mem rw.2 col_s block.col_s
              block.width (block.row_s + block.height) (fuel + 1) row_s
            Except.ok (some (row_s, col_s))
      match pos with
      | none => Except.ok st
      | some rc =>
        let st := execWindowPos rw rc.1 rc.2 st
        tryExecLoop block rw fuel rc.1 rc.2 st

/-- `TrafficModel::try_exec_block` (`oracle_storage_traffic_model.rs:969`):
the position scan starts from `row_s = 0, col_s = 0`. -/
def try_exec_block (block : Block) (rw : Nat × Nat) (fuel : Nat)
    (st : OracleState) : Except String OracleState :=
  tryExecLoop block rw fuel 0 0 st

/-- The candidate loop of `TrafficModel::oracle_adjust_window`
(`oracle_storage_traffic_model.rs:930`): while `rw[0] ≥ 1`, restore the A
store and the cache from their snapshots, speculatively execute the block,
observe `ΔB_read + Δpsum_read + Δpsum_write`, keep the strictly best
candidate, and halve/double the window.  No restore happens after the last
trial, and `output_base_addr` is never restored at all. -/
def oawLoop (block : Block) (tfuel : Nat) :
    Nat → Nat × Nat → Nat × (Nat × Nat) → OracleState →
      Except String ((Nat × Nat) × OracleState)
  | 0, _, _, _ => Except.error "fuel exhausted"
  | fuel + 1, rw, opt, st =>
    if rw.1 ≥ 1 then do
      let st := { st with
        a_mem := amemRestoreSnapshot st.a_mem
        cache := cacheRestoreSnapshot st.cache }
      let prevB := st.cache.st.b_mem.read_count
      let prevPR := st.cache.st.psum_mem.read_count
      let prevPW := st.cache.st.psum_mem.write_count
      let st ← try_exec_block block rw tfuel st
      let access := (st.cache.st.b_mem.read_count - prevB) +
        (st.cache.st.psum_mem.read_count - prevPR) +
        (st.cache.st.psum_mem.write_count - prevPW)
      let opt := if access < opt.1 then (access, rw) else opt
      oawLoop block tfuel fuel (rw.1 / 2, rw.2 * 2) opt st
    else
      Except.ok (opt.2, st)

/-- `TrafficModel::oracle_adjust_window` (`oracle_storage_traffic_model.rs:923`):
start from `[lane_num, 1]` with `opt_access_count = usize::MAX`. -/
def oracle_adjust_window (block : Block) (tfuel fuel : Nat)
    (st : OracleState) : Except String ((Nat × Nat) × OracleState) :=
  oawLoop block tfuel fuel (st.lane_num, 1) (USIZE_MAX, (0, 0)) st

/-- The oracle state before the search: one A row of five elements touching B
rows `0..5` (one element each), an empty cache of ample capacity, psum
addresses starting at `100`, two lanes. -/
def c1State : OracleState :=
  { a_mem := { rows := [[0, 1, 2, 3, 4]], read_count := 0, snapshot := none }
    cache :=
    { st :=
      { rowmap := []
        lru := []
        cur_num := 0
        capability := 10000
        read_count := 0
        write_count := 0
        miss_count := 0
        b_evict_count := 0
        psum_evict_count := 0
        psum_base := 100
        b_mem :=
        { rows := [⟨0, [0]⟩, ⟨1, [0]⟩, ⟨2, [0]⟩, ⟨3, [0]⟩, ⟨4, [0]⟩]
          read_count := 0
          write_count := 0 }
        psum_mem := { data := [], read_count := 0, write_count := 0 } }
      snapshot := none }
    output_base_addr := 100
    lane_num := 2 }

/-- The block handed to the oracle search: width 4, height 1, anchored at the
origin. -/
def c1Block : Block := { width := 4, height := 1, row_s := 0, col_s := 0 }

/-- Snapshot as `assign_jobs` does, run the oracle window search, and report
the chosen window, the final psum address counter, the final B read counter,
and the number of fibers left in the cache. -/
def c1run : Except String ((Nat × Nat) × Nat × Nat × Nat) := do
  let st := takeSnapshots c1State
  let r ← oracle_adjust_window c1Block 50 10 st
  Except.ok (r.1, r.2.output_base_addr, r.2.cache.st.b_mem.read_count,
    r.2.cache.st.rowmap.length)

end Oracle

/-- Claim C3: for the adaptive (NewOmega) variant the window shape chosen for
every new block is claimed to equal `[block_height, lane_num/block_height]`,
with the product of the two window dimensions always `lane_num`.  The code
instead returns `[block_shape[0], lane_num / block_shape[1]]`: at the reachable
state `block_shape = [2, 1]`, `lane_num = 8` it yields `[2, 8]`, whose product
is `16`, not `lane_num = 8`, and which differs from the claimed `[2, 4]`. -/
theorem adjust_window_new_omega_lane_product :
    Sched.adjust_window Sched.c3State = (2, 8) ∧
    2 * 8 ≠ Sched.c3State.lane_num ∧
    Sched.adjust_window Sched.c3State ≠ (2, 8 / 2) := by
  refine ⟨rfl, by decide, by decide⟩

/-- Claim C5: `find_above` is claimed to return, among the previous stripe's
column anchors, the one with the smallest absolute column delta, and never to
panic.  On the tracker whose previous stripe has column anchors `10, 20, 30`:
at query column `19` the binary search yields insertion index `1`, the code
compares only indices `0` and `2` (skipping the true neighbor at index `1`)
and returns the token of anchor `10` (delta `9`) although anchor `20`
(delta `1`) is strictly nearer; and at query column `3` (below every anchor,
insertion index `0`) the `usize` expression `c - 1` underflows and the lookup
panics. -/
theorem find_above_not_nearest_and_panics :
    Sched.find_above Sched.c5Tracker (19, 5) = Except.ok (some 100) ∧
    (20 ∈ Sched.c5Tracker.col_s_list.getD 0 [] ∧
      ((19 : Int) - 20).natAbs < ((19 : Int) - 10).natAbs) ∧
    Sched.find_above Sched.c5Tracker (3, 5) =
      Except.error "attempt to subtract with overflow" := by
  refine ⟨rfl, by decide, rfl⟩

namespace Sched

/-- The pair-counting loop reaches the threshold iff the full pair total
does: the early break cannot change whether `lane_num/2` pairs exist. -/
theorem pnumLoop_ge_iff : ∀ (l : List (Nat × List Nat)) (half p : Nat),
    half ≤ pnumLoop half p l ↔ half ≤ p + pairsTotal l := by
  intro l
  induction l with
  | nil => intro half p; simp [pnumLoop, pairsTotal]
  | cons e rest ih =>
    intro half p
    obtain ⟨r, addrs⟩ := e
    simp only [pnumLoop, pairsTotal, List.map_cons, List.sum_cons]
    by_cases h : half ≤ p
    · rw [if_pos h]
      constructor <;> intro _ <;> omega
    · rw [if_neg h, ih half (p + addrs.length / 2)]
      simp only [pairsTotal]
      omega

/-- With a positive threshold, the counted value is zero iff no pair exists. -/
theorem pnumLoop_eq_zero_iff : ∀ (l : List (Nat × List Nat)) (half p : Nat),
    0 < half → (pnumLoop half p l = 0 ↔ p = 0 ∧ pairsTotal l = 0) := by
  intro l
  induction l with
  | nil => intro half p _; simp [pnumLoop, pairsTotal]
  | cons e rest ih =>
    intro half p hhalf
    obtain ⟨r, addrs⟩ := e
    simp only [pnumLoop, pairsTotal, List.map_cons, List.sum_cons]
    by_cases h : half ≤ p
    · rw [if_pos h]
      constructor
      · intro hp; omega
      · intro hp; omega
    · rw [if_neg h, ih half (p + addrs.length / 2) hhalf]
      simp only [pairsTotal]
      omega

/-- With threshold zero the loop breaks immediately. -/
theorem pnumLoop_half_zero (l : List (Nat × List Nat)) (p : Nat) :
    pnumLoop 0 p l = p := by
  cases l with
  | nil => rfl
  | cons e rest => obtain ⟨r, addrs⟩ := e; simp [pnumLoop]

/-- Zero-count characterization valid for every threshold. -/
theorem pnumLoop_zero_iff (l : List (Nat × List Nat)) (half : Nat) :
    pnumLoop half 0 l = 0 ↔ half = 0 ∨ pairsTotal l = 0 := by
  cases half with
  | zero => simp [pnumLoop_half_zero]
  | succ n =>
    rw [pnumLoop_eq_zero_iff l (n + 1) 0 (Nat.succ_pos n)]
    omega

/-- The issuing tail always returns a task. -/
theorem merge_task_issue_fst_isSome (s : SchedState) (psums : List (Nat × Nat))
    (tracker : List (Nat × List Nat)) :
    (merge_task_issue s psums tracker).1.isSome = true := rfl

/-- `merge_task` returns a task iff the source's guard fails. -/
theorem merge_task_fst_isSome_iff (s : SchedState) :
    (merge_task s).1.isSome = true ↔
      ¬((s.a_traversed = true ∧
          pnumLoop (s.lane_num / 2) 0 s.output_tracker = 0) ∨
        (¬s.a_traversed = true ∧
          pnumLoop (s.lane_num / 2) 0 s.output_tracker < s.lane_num / 2)) := by
  unfold merge_task
  by_cases h : (s.a_traversed = true ∧
      pnumLoop (s.lane_num / 2) 0 s.output_tracker = 0) ∨
    (¬s.a_traversed = true ∧
      pnumLoop (s.lane_num / 2) 0 s.output_tracker < s.lane_num / 2)
  · rw [if_pos h]
    constructor
    · intro hx
      simp at hx
    · intro hx
      exact (hx h).elim
  · rw [if_neg h]
    constructor
    · intro _
      exact h
    · intro _
      exact merge_task_issue_fst_isSome s _ _

/-- `merge_task` returns a task iff the pair total passes the guard, stated in
terms of the full pair total. -/
theorem merge_task_isSome_char (s : SchedState) :
    (merge_task s).1.isSome = true ↔
      ¬((s.a_traversed = true ∧
          (s.lane_num / 2 = 0 ∨ pairsTotal s.output_tracker = 0)) ∨
        (¬s.a_traversed = true ∧
          pairsTotal s.output_tracker < s.lane_num / 2)) := by
  rw [merge_task_fst_isSome_iff, pnumLoop_zero_iff]
  have hge := pnumLoop_ge_iff s.output_tracker (s.lane_num / 2) 0
  constructor <;> intro h <;> intro hc <;> apply h <;>
    rcases hc with hc | hc
  · exact Or.inl hc
  · exact Or.inr ⟨hc.1, by omega⟩
  · exact Or.inl hc
  · exact Or.inr ⟨hc.1, by omega⟩

end Sched

/-- Claim C7 (counterexample): with `lane_num = 1` and A fully traversed, one
psum pair is available, yet `merge_task` returns `None` — the counting loop
breaks at the trivially met threshold `lane_num/2 = 0`, leaving `pnum = 0`,
and the guard `a_traversed && pnum == 0` rejects.  The claim's clause (b)
("A fully traversed and at least one pair exists") demands a task here. -/
theorem merge_task_lane_one_counterexample :
    (Sched.merge_task Sched.c7State).1 = none ∧
    Sched.c7State.a_traversed = true ∧
    1 ≤ Sched.pairsTotal Sched.c7State.output_tracker := by
  refine ⟨by decide, rfl, by decide⟩

/-- Claim C7 (amended): for `lane_num ≥ 2`, `merge_task` returns a task iff
at least `lane_num/2` row-local psum pairs are available or A has been fully
traversed and at least one pair exists; whenever it returns `None` the entire
scheduler state — in particular the output tracker — is left unchanged. -/
theorem merge_task_some_iff (s : Sched.SchedState) (h2 : 2 ≤ s.lane_num) :
    ((Sched.merge_task s).1.isSome = true ↔
      (s.lane_num / 2 ≤ Sched.pairsTotal s.output_tracker ∨
        (s.a_traversed = true ∧ 1 ≤ Sched.pairsTotal s.output_tracker))) ∧
    ((Sched.merge_task s).1 = none → (Sched.merge_task s).2 = s) := by
  have hhalf : 0 < s.lane_num / 2 := Nat.div_pos h2 (by norm_num)
  constructor
  · rw [Sched.merge_task_isSome_char]
    cases htrav : s.a_traversed
    all_goals simp [htrav]
    all_goals omega
  · intro hnone
    unfold Sched.merge_task at hnone ⊢
    by_cases h : (s.a_traversed = true ∧
        Sched.pnumLoop (s.lane_num / 2) 0 s.output_tracker = 0) ∨
      (¬s.a_traversed = true ∧
        Sched.pnumLoop (s.lane_num / 2) 0 s.output_tracker < s.lane_num / 2)
    · rw [if_pos h]
    · rw [if_neg h] at hnone
      have hs := Sched.merge_task_issue_fst_isSome s
        (Sched.drainAll s.lane_num [] s.output_tracker).1
        (Sched.drainAll s.lane_num [] s.output_tracker).2
      rw [hnone] at hs
      simp at hs

/-- Witness for `merge_task_some_iff` at a concrete state: `lane_num = 2`,
one pair available, A not yet traversed. -/
theorem merge_task_some_iff_witness :
    2 ≤ Sched.c7WitnessState.lane_num ∧
    (((Sched.merge_task Sched.c7WitnessState).1.isSome = true ↔
      (Sched.c7WitnessState.lane_num / 2 ≤
          Sched.pairsTotal Sched.c7WitnessState.output_tracker ∨
        (Sched.c7WitnessState.a_traversed = true ∧
          1 ≤ Sched.pairsTotal Sched.c7WitnessState.output_tracker))) ∧
    ((Sched.merge_task Sched.c7WitnessState).1 = none →
      (Sched.merge_task Sched.c7WitnessState).2 = Sched.c7WitnessState)) :=
  ⟨by decide, merge_task_some_iff Sched.c7WitnessState (by decide)⟩

/-- Claim C2 (counterexample): two scheduler states identical up to the
iteration order of the output tracker (a permutation of the same entries)
yield different merge tasks: the drain loop pairs whatever rows it visits
first.  Rust's `HashMap` does not fix this order across runs, so merge-task
formation is not a function of the tracker's contents alone. -/
theorem merge_task_order_counterexample :
    List.Perm Sched.c2StateA.output_tracker Sched.c2StateB.output_tracker ∧
    Sched.c2StateA.lane_num = Sched.c2StateB.lane_num ∧
    Sched.c2StateA.a_traversed = Sched.c2StateB.a_traversed ∧
    (Sched.merge_task Sched.c2StateA).1 ≠ (Sched.merge_task Sched.c2StateB).1 := by
  refine ⟨by decide, rfl, rfl, by decide⟩

/-- Claim C2 (amended): the merge-task *decision* (whether a task is issued)
is invariant under permuting the output tracker's iteration order; only the
selected psum pairing depends on the order. -/
theorem merge_task_decision_order_invariant (s₁ s₂ : Sched.SchedState)
    (hlane : s₁.lane_num = s₂.lane_num)
    (htrav : s₁.a_traversed = s₂.a_traversed)
    (hperm : List.Perm s₁.output_tracker s₂.output_tracker) :
    (Sched.merge_task s₁).1.isSome = (Sched.merge_task s₂).1.isSome := by
  have htot : Sched.pairsTotal s₁.output_tracker =
      Sched.pairsTotal s₂.output_tracker :=
    List.Perm.sum_eq (hperm.map _)
  have h₁ := Sched.merge_task_isSome_char s₁
  have h₂ := Sched.merge_task_isSome_char s₂
  rw [hlane, htrav, htot] at h₁
  have hiff := h₁.trans h₂.symm
  cases hb₁ : (Sched.merge_task s₁).1.isSome <;>
    cases hb₂ : (Sched.merge_task s₂).1.isSome
  · rfl
  · rw [hb₁, hb₂] at hiff
    simp at hiff
  · rw [hb₁, hb₂] at hiff
    simp at hiff
  · rfl

/-- Witness for `merge_task_decision_order_invariant` at the two concrete
orderings. -/
theorem merge_task_decision_order_invariant_witness :
    List.Perm Sched.c2StateA.output_tracker Sched.c2StateB.output_tracker ∧
    (Sched.merge_task Sched.c2StateA).1.isSome =
      (Sched.merge_task Sched.c2StateB).1.isSome :=
  ⟨by decide, merge_task_decision_order_invariant _ _ rfl rfl (by decide)⟩


namespace Sched

/-- The `parse_group` scan produces contiguous, nonempty, consecutive ranges
from `row_s` to `idx + rest.length`. -/
theorem chainB_pgAux (trigger : Nat → Nat → Bool) :
    ∀ (rest : List Nat) (idx row_s : Nat) (prev : Option Nat),
      row_s ≤ idx → row_s < idx + rest.length →
      (∀ p, prev = some p → row_s < idx) →
      chainB (pgAux trigger rest idx row_s prev) row_s (idx + rest.length) =
        true := by
  intro rest
  induction rest with
  | nil =>
    intro idx row_s prev _ h2 _
    simp only [pgAux, chainB, List.length_nil, Nat.add_zero] at h2 ⊢
    simp [h2]
  | cons len rest ih =>
    intro idx row_s prev h1 h2 h3
    simp only [List.length_cons]
    have harith : idx + (rest.length + 1) = (idx + 1) + rest.length := by omega
    by_cases hz : len = 0
    · simp only [pgAux, if_pos hz]
      rw [harith]
      exact ih (idx + 1) row_s prev (by omega) (by omega)
        (fun p hp => lt_of_le_of_lt (h3 p hp).le (by omega))
    · simp only [pgAux, if_neg hz]
      cases prev with
      | none =>
        rw [harith]
        exact ih (idx + 1) row_s (some len) (by omega) (by omega)
          (fun p _ => by omega)
      | some p =>
        by_cases ht : trigger p len
        · simp only [if_pos ht]
          have hlt : row_s < idx := h3 p rfl
          simp only [chainB, Bool.and_eq_true, beq_self_eq_true, true_and,
            decide_eq_true_eq]
          refine ⟨hlt, ?_⟩
          rw [harith]
          exact ih (idx + 1) idx (some len) (by omega) (by omega)
            (fun q _ => by omega)
        · simp only [if_neg ht]
          rw [harith]
          exact ih (idx + 1) row_s (some len) (by omega) (by omega)
            (fun q _ => by omega)

/-- Rows below the covered range are absent from the reverse map. -/
theorem rgmapAux_none_of_lt :
    ∀ (gs : List (Nat × Nat)) (a b r i : Nat),
      chainB gs a b = true → r < a → rgmapAux i gs r = none := by
  intro gs
  induction gs with
  | nil => intro a b r i _ _; rfl
  | cons g gs ih =>
    intro a b r i hc hr
    obtain ⟨s, e⟩ := g
    simp only [chainB, Bool.and_eq_true, beq_iff_eq, decide_eq_true_eq] at hc
    obtain ⟨⟨hs, he⟩, hrest⟩ := hc
    simp only [rgmapAux]
    rw [ih e b r (i + 1) hrest (by omega)]
    simp only []
    rw [if_neg (by omega)]

/-- Every row inside the covered range is mapped, to the unique group whose
range contains it. -/
theorem rgmapAux_total :
    ∀ (gs : List (Nat × Nat)) (a b r i : Nat),
      chainB gs a b = true → a ≤ r → r < b →
      ∃ j s e, rgmapAux i gs r = some (i + j) ∧
        gs.get? j = some (s, e) ∧ s ≤ r ∧ r < e := by
  intro gs
  induction gs with
  | nil =>
    intro a b r i hc h1 h2
    simp only [chainB, beq_iff_eq] at hc
    omega
  | cons g gs ih =>
    intro a b r i hc h1 h2
    obtain ⟨s, e⟩ := g
    simp only [chainB, Bool.and_eq_true, beq_iff_eq, decide_eq_true_eq] at hc
    obtain ⟨⟨hs, he⟩, hrest⟩ := hc
    by_cases hre : r < e
    · refine ⟨0, s, e, ?_, rfl, by omega, hre⟩
      simp only [rgmapAux]
      rw [rgmapAux_none_of_lt gs e b r (i + 1) hrest hre]
      simp only []
      rw [if_pos (by omega)]
      simp
    · obtain ⟨j, s', e', hm, hg, hb1, hb2⟩ :=
        ih e b r (i + 1) hrest (by omega) h2
      refine ⟨j + 1, s', e', ?_, by simpa using hg, hb1, hb2⟩
      simp only [rgmapAux, hm]
      exact congrArg some (by omega)

/-- Every produced group start is either the initial row `0` of the scan
segment or an index whose row length is nonzero: empty rows never start a new
group. -/
theorem pgAux_starts (trigger : Nat → Nat → Bool) :
    ∀ (rest : List Nat) (idx row_s : Nat) (prev : Option Nat),
      ∀ se ∈ pgAux trigger rest idx row_s prev,
        se.1 = row_s ∨
          ∃ k, se.1 = idx + k ∧ rest.get? k ≠ some 0 ∧ (rest.get? k).isSome := by
  intro rest
  induction rest with
  | nil =>
    intro idx row_s prev se hse
    simp only [pgAux, List.mem_singleton] at hse
    subst hse
    exact Or.inl rfl
  | cons len rest ih =>
    intro idx row_s prev se hse
    have lift : (se.1 = row_s ∨
        ∃ k, se.1 = (idx + 1) + k ∧ rest.get? k ≠ some 0 ∧
          (rest.get? k).isSome) →
        se.1 = row_s ∨
          ∃ k, se.1 = idx + k ∧ (len :: rest).get? k ≠ some 0 ∧
            ((len :: rest).get? k).isSome := by
      rintro (h | ⟨k, hk, hne, hsome⟩)
      · exact Or.inl h
      · exact Or.inr ⟨k + 1, by omega, by simpa using hne, by simpa using hsome⟩
    by_cases hz : len = 0
    · simp only [pgAux, if_pos hz] at hse
      exact lift (ih (idx + 1) row_s prev se hse)
    · simp only [pgAux, if_neg hz] at hse
      cases prev with
      | none => exact lift (ih (idx + 1) row_s (some len) se hse)
      | some p =>
        dsimp only at hse
        by_cases ht : trigger p len
        · rw [if_pos ht] at hse
          rcases List.mem_cons.mp hse with hhead | htail
          · subst hhead
            exact Or.inl rfl
          · rcases ih (idx + 1) idx (some len) se htail with h | h
            · refine Or.inr ⟨0, by omega, ?_, by simp⟩
              simp only [List.get?]
              intro hcon
              exact hz (by injection hcon)
            · exact lift (Or.inr h)
        · rw [if_neg ht] at hse
          exact lift (ih (idx + 1) row_s (some len) se hse)

end Sched

/-- Claim C10: for every input matrix with at least one row and any variance
trigger, `parse_group` produces contiguous, disjoint, nonempty row ranges
covering `[0, row_num)` (`chainB _ 0 row_num`); the reverse map `rgmap`
assigns every row index — rows with zero nonzeros included — to the unique
group containing it; and only the initial row `0` or a row with a nonzero
length ever starts a group.  Consequently the scheduler's `rgmap` lookup at
any block's starting row (always `< row_num`) succeeds. -/
theorem parse_group_partition_rgmap_total (trigger : Nat → Nat → Bool)
    (lens : List Nat) (h : 1 ≤ lens.length) :
    Sched.chainB (Sched.parse_group trigger lens) 0 lens.length = true ∧
    (∀ r, r < lens.length → ∃ j s e,
      Sched.rgmapAux 0 (Sched.parse_group trigger lens) r = some j ∧
      (Sched.parse_group trigger lens).get? j = some (s, e) ∧
      s ≤ r ∧ r < e) ∧
    (∀ se ∈ Sched.parse_group trigger lens, se.1 = 0 ∨
      lens.get? se.1 ≠ some 0) := by
  have hchain : Sched.chainB (Sched.parse_group trigger lens) 0 lens.length =
      true := by
    have := Sched.chainB_pgAux trigger lens 0 0 none (le_refl 0)
      (by simpa using h) (fun p hp => by cases hp)
    simpa [Sched.parse_group] using this
  refine ⟨hchain, ?_, ?_⟩
  · intro r hr
    obtain ⟨j, s, e, hm, hg, h1, h2⟩ :=
      Sched.rgmapAux_total (Sched.parse_group trigger lens) 0 lens.length r 0
        hchain (Nat.zero_le r) hr
    exact ⟨j, s, e, by simpa using hm, hg, h1, h2⟩
  · intro se hse
    rcases Sched.pgAux_starts trigger lens 0 0 none se hse with h0 | ⟨k, hk, hne, _⟩
    · exact Or.inl h0
    · right
      rw [hk]
      simpa using hne

/-- Witness for `parse_group_partition_rgmap_total` on the concrete row
lengths `[1, 3]` with the trigger `p + p < len`. -/
theorem parse_group_partition_rgmap_total_witness :
    1 ≤ ([1, 3] : List Nat).length ∧
    (Sched.chainB
        (Sched.parse_group (fun p len => decide (p + p < len)) [1, 3]) 0
        ([1, 3] : List Nat).length = true ∧
    (∀ r, r < ([1, 3] : List Nat).length → ∃ j s e,
      Sched.rgmapAux 0
        (Sched.parse_group (fun p len => decide (p + p < len)) [1, 3]) r =
        some j ∧
      (Sched.parse_group (fun p len => decide (p + p < len)) [1, 3]).get? j =
        some (s, e) ∧ s ≤ r ∧ r < e) ∧
    (∀ se ∈ Sched.parse_group (fun p len => decide (p + p < len)) [1, 3],
      se.1 = 0 ∨ ([1, 3] : List Nat).get? se.1 ≠ some 0)) :=
  ⟨by decide,
    parse_group_partition_rgmap_total (fun p len => decide (p + p < len))
      [1, 3] (by decide)⟩

namespace Sched

/-- For pointwise-bounded pairs, sums agree exactly when every pair is
saturated, which is the Boolean test `is_block_finished` performs. -/
theorem sum_eq_iff_all_ge : ∀ (l : List (Nat × Nat)),
    (∀ p ∈ l, p.1 ≤ p.2) →
    ((l.map Prod.fst).sum = (l.map Prod.snd).sum ↔
      l.all (fun p => !(decide (p.1 < p.2))) = true) := by
  intro l
  induction l with
  | nil => intro _; simp
  | cons p l ih =>
    intro hle
    have hp : p.1 ≤ p.2 := hle p (List.mem_cons_self p l)
    have hrest : ∀ q ∈ l, q.1 ≤ q.2 := fun q hq =>
      hle q (List.mem_cons_of_mem p hq)
    have hsum : (l.map Prod.fst).sum ≤ (l.map Prod.snd).sum :=
      List.sum_le_sum hrest
    simp only [List.map_cons, List.sum_cons, List.all_cons, Bool.and_eq_true,
      Bool.not_eq_true', decide_eq_false_iff_not, not_lt]
    rw [← ih hrest]
    omega

end Sched

/-- Claim C6 (counterexample): with `Omega`, `lane_num = 4` and configured
`block_shape = [2, 3]`, the window shape is `[2, 2]`; the second window of the
first block overruns the block's column range (`2 + 2 > 3`), so `next_window`
assigns 4 column slots to row 0 whose block quota is 3.  At that point
`is_block_finished` reports `true` while `Σ a_cols_assigned = 5 ≠ 4 =
Σ a_cols_num`, refuting the claimed equivalence at a reachable execution
point. -/
theorem next_window_overassign :
    Sched.c6run = Except.ok (true, 5, 4) ∧ (5 : Nat) ≠ 4 :=
  ⟨rfl, by decide⟩

/-- Claim C6 (amended): for every issued block whose per-row assignment never
exceeds its per-row total (which holds whenever windows do not overrun the
block, for instance when the window width divides the block width),
`Σ a_cols_assigned = Σ a_cols_num` holds iff `is_block_finished` reports the
block finished. -/
theorem is_block_finished_iff_sum (s : Sched.SchedState) (tok : Nat)
    (bt : Sched.BlockTrackerRec)
    (hbt : alookup s.block_tracker tok = some bt)
    (hlen : bt.a_cols_assigned.length = bt.a_cols_num.length)
    (hle : ∀ p ∈ bt.a_cols_assigned.zip bt.a_cols_num, p.1 ≤ p.2) :
    (bt.a_cols_assigned.sum = bt.a_cols_num.sum ↔
      Sched.is_block_finished s tok = Except.ok true) := by
  have hzf : (bt.a_cols_assigned.zip bt.a_cols_num).map Prod.fst =
      bt.a_cols_assigned :=
    List.map_fst_zip _ _ (le_of_eq hlen)
  have hzs : (bt.a_cols_assigned.zip bt.a_cols_num).map Prod.snd =
      bt.a_cols_num :=
    List.map_snd_zip _ _ (le_of_eq hlen.symm)
  have hiff := Sched.sum_eq_iff_all_ge (bt.a_cols_assigned.zip bt.a_cols_num)
    hle
  rw [hzf, hzs] at hiff
  unfold Sched.is_block_finished
  rw [hbt, hiff]
  simp

/-- Witness for `is_block_finished_iff_sum` at a concrete block whose
assignments respect their quotas. -/
theorem is_block_finished_iff_sum_witness :
    alookup Sched.c6WitnessState.block_tracker 0 = some
      { token := 0
        anchor := (0, 0)
        shape := (2, 3)
        is_merge_block := false
        a_cols_assigned := [2, 1]
        a_cols_num := [3, 1]
        window_tokens := [0]
        miss_size := 0
        psum_rw_size := (0, 0)
        is_tail := [false, true] } ∧
    (([2, 1] : List Nat).sum = ([3, 1] : List Nat).sum ↔
      Sched.is_block_finished Sched.c6WitnessState 0 = Except.ok true) :=
  ⟨by decide,
    is_block_finished_iff_sum Sched.c6WitnessState 0
      { token := 0
        anchor := (0, 0)
        shape := (2, 3)
        is_merge_block := false
        a_cols_assigned := [2, 1]
        a_cols_num := [3, 1]
        window_tokens := [0]
        miss_size := 0
        psum_rw_size := (0, 0)
        is_tail := [false, true] }
      (by decide) (by decide) (by decide)⟩

/-- Claim C4: every block emitted by `next_block` is claimed to be recorded in
the block topology tracker so that later `find_left`/`find_above` queries can
return it.  Opening the first block of a one-row matrix emits block token `0`,
but the topology tracker stays empty — `scheduler.rs` never pushes into
`row_s_list`/`col_s_list`/`token_list` — and both neighbor queries answer
`None` for the block's own anchor. -/
theorem next_block_topo_tracker_unrecorded :
    Sched.c4run = Except.ok (some 0, ⟨[], [], []⟩,
      Except.ok none, Except.ok none) := rfl

/-- Claim C8: a psum is swapped out of the fiber cache only for a row whose
looked-up psum list has length exactly 1, whose merge tracker is marked
finished, and whose pending-block set is empty — for every queue, output
tracker, and merge tracker state, every swap-out event the `assign_jobs`
merge-queue walk emits satisfies all three conditions (and swaps that row's
single psum address). -/
theorem swapout_only_for_eligible_rows :
    ∀ (out : List (Nat × List Nat)) (mt : List (Nat × Oracle.MergeTrackerRec))
      (q : List Nat) (c : Nat × Nat),
      c ∈ (Oracle.mqLoop out mt q).swaps →
      ∃ addrs tr, alookup out c.1 = some addrs ∧ addrs.length = 1 ∧
        alookup mt c.1 = some tr ∧ tr.finished = true ∧ tr.blocks = [] ∧
        c.2 = addrs.headD 0 := by
  intro out mt q
  induction q with
  | nil => intro c hc; simp [Oracle.mqLoop] at hc
  | cons rowid rest ih =>
    intro c hc
    cases hout : alookup out rowid with
    | none => simp [Oracle.mqLoop, hout] at hc
    | some addrs =>
      by_cases hlen : addrs.length = 1
      · cases hmt : alookup mt rowid with
        | none => simp [Oracle.mqLoop, hout, hlen, hmt] at hc
        | some tr =>
          simp only [Oracle.mqLoop, hout, hmt, if_pos hlen,
            List.mem_append] at hc
          by_cases hcond : tr.finished = true ∧ tr.blocks = []
          · rw [if_pos hcond] at hc
            rcases hc with hc | hc
            · rcases List.mem_singleton.mp hc with rfl
              exact ⟨addrs, tr, hout, hlen, hmt, hcond.1, hcond.2, rfl⟩
            · exact ih c hc
          · rw [if_neg hcond] at hc
            rcases hc with hc | hc
            · simp at hc
            · exact ih c hc
      · simp only [Oracle.mqLoop, hout, if_neg hlen] at hc
        exact ih c hc

/-- Witness for `swapout_only_for_eligible_rows`: a queued row with one psum,
finished, and no pending blocks is swapped out. -/
theorem swapout_only_for_eligible_rows_witness :
    ((3, 9) ∈ (Oracle.mqLoop [(3, [9])] [(3, ⟨true, []⟩)] [3]).swaps) ∧
    (∃ addrs tr, alookup [(3, [9])] 3 = some addrs ∧ addrs.length = 1 ∧
      alookup [(3, (⟨true, []⟩ : Oracle.MergeTrackerRec))] 3 = some tr ∧
      tr.finished = true ∧ tr.blocks = [] ∧ (9 : Nat) = addrs.headD 0) :=
  ⟨by decide,
    swapout_only_for_eligible_rows [(3, [9])] [(3, ⟨true, []⟩)] [3] (3, 9)
      (by decide)⟩

/-- Claim C9: at shutdown `get_exec_result` is claimed to emit exactly one
fiber per original A-row, with indices relabeled through the row remap.  On a
remapped matrix whose internal row 0 is original row 1 (nonzero) and internal
row 1 is original row 0 (empty), it instead emits two fibers both labeled row
1 and none labeled row 0: the empty row keeps its internal index
(`CsrRow::new(rowid)` is never relabeled), although the remap records that
internal row 1 is original row 0. -/
theorem get_exec_result_duplicate_row_labels :
    Oracle.get_exec_result Oracle.c9State =
      Except.ok [⟨1, [0]⟩, ⟨1, []⟩] ∧
    (([(⟨1, [0]⟩ : Oracle.Fiber), ⟨1, []⟩].map Oracle.Fiber.rowptr = [1, 1]) ∧
      alookup Oracle.c9State.row_remap 1 = some 0) :=
  ⟨rfl, by decide⟩

/-- Claim C1: the oracle window search is claimed to restore before
committing, leaving the fiber cache, the stores, and all counters — the psum
address counter `output_base_addr` included — exactly as at the preceding
`take_snapshot`.  On a one-row instance the search returns with
`output_base_addr = 106` although it was `100` at the snapshot (each trial
allocates addresses and no restore covers the counter), with
`b_mem.read_count = 4` although it was `0` at the snapshot, and with 8 fibers
(the last trial's B fibers and speculative psums) still resident in the cache
that was empty at the snapshot: the loop restores only *before* each trial,
so the last trial's effects survive the search. -/
theorem oracle_adjust_window_residual_effects :
    Oracle.c1run = Except.ok ((2, 1), 106, 4, 8) ∧
    (Oracle.takeSnapshots Oracle.c1State).cache.snapshot =
      some Oracle.c1State.cache.st ∧
    Oracle.c1State.output_base_addr = 100 ∧ (106 : Nat) ≠ 100 ∧
    Oracle.c1State.cache.st.b_mem.read_count = 0 ∧ (4 : Nat) ≠ 0 ∧
    Oracle.c1State.cache.st.rowmap.length = 0 ∧ (8 : Nat) ≠ 0 :=
  ⟨rfl, rfl, rfl, by decide, rfl, by decide, rfl, by decide⟩
